import Mathlib

/-!
Verification of the hockeypuck OpenPGP entity model (`openpgp` package):
a shallow embedding of the data model (Pubkey, Signature, UserId,
UserAttribute, Subkey), its accessor methods, the visitor traversal, the
self-signature resolver, image extraction, and the merge engine, together
with theorems settling the specified properties.

Go strings are embedded as `List Char`, byte slices as `List Nat`
(each element a byte value), `time.Time` as `Int` (Unix seconds), and
fallible operations as `Option`-valued functions.  External library calls
(the go.crypto packet codec) are modelled by concrete executable stand-ins;
serialization of an already-parsed packet to an in-memory buffer is
modelled as total, since for buffer writers it cannot fail.
-/

/-- Go string, as a list of characters. -/
abbrev GoString := List Char

/-- Modelled from the spec: the repository's string-reversal utility
`Reverse` (Identity Utilities) is not part of the visible source; per the
spec it is a plain character-order flip. -/
def Reverse (s : GoString) : GoString := s.reverse

/-- Modelled from the spec: the repository's `CleanUtf8` keyword sanitizer
is not part of the visible source; per the spec it strips invalid/control
byte sequences, never failing.  Modelled as stripping control characters
(code points below 32). -/
def CleanUtf8 (s : GoString) : GoString := s.filter (fun c => decide (32 <= c.toNat))

/-- One hex digit (lower case), as produced by Go `encoding/hex`. -/
def hexDigit (n : Nat) : Char := if n < 10 then Char.ofNat (48 + n) else Char.ofNat (87 + n)

/-- Hex encoding of one byte: two hex characters. -/
def byteHex (b : Nat) : GoString := [hexDigit (b / 16 % 16), hexDigit (b % 16)]

/-- Go `hex.EncodeToString` over a byte slice. -/
def hexEncodeBytes (bs : List Nat) : GoString := bs.flatMap byteHex

/-- Go `binary.BigEndian.PutUint64`: the eight big-endian bytes of a
64-bit value (reduced modulo 2^64). -/
def putUint64be (n : Nat) : List Nat :=
  [n % 2 ^ 64 / 2 ^ 56, n % 2 ^ 56 / 2 ^ 48, n % 2 ^ 48 / 2 ^ 40, n % 2 ^ 40 / 2 ^ 32,
   n % 2 ^ 32 / 2 ^ 24, n % 2 ^ 24 / 2 ^ 16, n % 2 ^ 16 / 2 ^ 8, n % 2 ^ 8]

/-- Go slice expression `s[:n]` on a string: in bounds it takes the first
`n` characters, out of bounds it panics (modelled as `none`). -/
def goSliceTo (s : GoString) (n : Nat) : Option GoString :=
  if n <= s.length then some (s.take n) else none

/-- Model of go.crypto `packet.PublicKey` as consumed by this package:
the subkey flag, creation time, algorithm, the packet body bytes, and the
result of the fallible external `BitLength()` call (which fails for
unsupported algorithms). -/
structure PublicKey where
  IsSubkey : Bool
  CreationTime : Int
  PubKeyAlgo : Int
  Material : List Nat
  BitLength : Option Int
deriving DecidableEq

/-- Model of the external public-key packet serializer (total for
in-memory buffers): the packet body bytes. -/
def serializePublicKey (pk : PublicKey) : List Nat := pk.Material

/-- Modelled from the spec: the repository's `Fingerprint(pk)` utility is
not part of the visible source; per the spec it is a hex digest over the
public-key packet body.  The external digest is abstracted as the hex
encoding of the packet body itself. -/
def FingerprintPk (pk : PublicKey) : GoString := hexEncodeBytes pk.Material

/-- Model of go.crypto `packet.Signature` as consumed by this package. -/
structure SigPacket where
  CreationTime : Int
  SigType : Int
  IssuerKeyId : Option Nat
  SigLifetimeSecs : Option Nat
deriving DecidableEq

/-- Model of the external signature packet serializer (total for
in-memory buffers). -/
def serializeSigPacket (s : SigPacket) : List Nat :=
  s.SigType.natAbs :: s.CreationTime.natAbs ::
    (match s.IssuerKeyId with
     | some kid => putUint64be kid
     | none => [])

/-- Model of go.crypto `packet.UserId`. -/
structure UserIdPacket where
  Id : GoString
deriving DecidableEq

/-- Model of the external user-id packet serializer. -/
def serializeUserIdPacket (u : UserIdPacket) : List Nat := u.Id.map Char.toNat

/-- Model of the external user-id packet decoder (`packet.Read` yielding a
`*packet.UserId`). -/
def decodeUserIdPacket (b : List Nat) : Option UserIdPacket := some ⟨b.map Char.ofNat⟩

/-- Model of go.crypto `packet.OpaquePacket`: tag and raw contents. -/
structure OpaquePacket where
  Tag : Nat
  Contents : List Nat
deriving DecidableEq

/-- Model of the external opaque-packet reader (`packet.NewOpaqueReader`
followed by `Next()`): a tag byte, a length byte and the contents; fails
on truncated or empty input. -/
def decodeOpaquePacket (b : List Nat) : Option OpaquePacket :=
  match b with
  | tag :: len :: rest => if rest.length = len then some ⟨tag, rest⟩ else none
  | _ => none

/-- Model of the external opaque-packet serializer, inverse of
`decodeOpaquePacket`. -/
def serializeOpaquePacket (op : OpaquePacket) : List Nat :=
  op.Tag :: op.Contents.length :: op.Contents

/-- Model of one go.crypto `packet.OpaqueSubpacket`: sub-type tag and
contents. -/
structure OpaqueSubpacket where
  SubType : Nat
  Contents : List Nat
deriving DecidableEq

/-- Model of the external `packet.OpaqueSubpackets` parser: repeated
length-prefixed subpackets (a length byte counting the sub-type byte plus
the data, the sub-type byte, then the data); fails on truncation or a zero
length. -/
def OpaqueSubpackets (b : List Nat) : Option (List OpaqueSubpacket) :=
  match b with
  | [] => some []
  | len :: rest =>
    if len = 0 then none
    else if rest.length < len then none
    else
      match rest.take len with
      | [] => none
      | subtype :: data =>
        match OpaqueSubpackets (rest.drop len) with
        | none => none
        | some subs => some (⟨subtype, data⟩ :: subs)
termination_by b.length
decreasing_by
  simp only [List.length_drop, List.length_cons]
  omega

/-- The typed packet values handed to the entities' `SetPacket` methods
(go.crypto `packet.Packet` interface, restricted to the cases this package
inspects). -/
inductive TypedPacket where
  | publicKey : PublicKey → TypedPacket
  | signature : SigPacket → TypedPacket
  | userId : UserIdPacket → TypedPacket
  | opaquePacket : OpaquePacket → TypedPacket
deriving DecidableEq

/-- The error values produced by this package (the source's
`ErrInvalidPacketType`, `InvalidPacketErr`, `InvalidPacketType`, the
"Signature missing issuer key ID" error, the external `BitLength` error,
and the merge fingerprint-mismatch error). -/
inductive OpError where
  | ErrInvalidPacketType
  | InvalidPacketErr
  | InvalidPacketType
  | MissingIssuer
  | BitLengthErr
  | FingerprintMismatch
deriving DecidableEq

/-- The `Signature` entity (source struct `Signature`); recursive because
of the `Revsig` reference to a possibly revoking signature. -/
inductive Signature where
  | mk : (ScopedDigest : GoString) → (Creation : Int) → (Expiration : Int) →
      (State : Int) → (Packet : List Nat) → (SigType : Int) →
      (RIssuerKeyId : GoString) → (RIssuerFingerprint : GoString) →
      (RevsigDigest : GoString) → (Revsig : Option Signature) → Signature

def Signature.ScopedDigest : Signature → GoString
  | .mk d _ _ _ _ _ _ _ _ _ => d

def Signature.Creation : Signature → Int
  | .mk _ c _ _ _ _ _ _ _ _ => c

def Signature.Expiration : Signature → Int
  | .mk _ _ e _ _ _ _ _ _ _ => e

def Signature.State : Signature → Int
  | .mk _ _ _ st _ _ _ _ _ _ => st

def Signature.Packet : Signature → List Nat
  | .mk _ _ _ _ p _ _ _ _ _ => p

def Signature.SigType : Signature → Int
  | .mk _ _ _ _ _ t _ _ _ _ => t

def Signature.RIssuerKeyId : Signature → GoString
  | .mk _ _ _ _ _ _ i _ _ _ => i

def Signature.RIssuerFingerprint : Signature → GoString
  | .mk _ _ _ _ _ _ _ f _ _ => f

def Signature.RevsigDigest : Signature → GoString
  | .mk _ _ _ _ _ _ _ _ rd _ => rd

def Signature.Revsig : Signature → Option Signature
  | .mk _ _ _ _ _ _ _ _ _ rv => rv

/-- The `UserId` entity (source struct `UserId`). -/
structure UserId where
  ScopedDigest : GoString
  Creation : Int
  Expiration : Int
  State : Int
  Packet : List Nat
  PubkeyRFP : GoString
  Keywords : GoString
  SelfSignature : Option Signature
  Signatures : List Signature

/-- The `UserAttribute` entity (source struct `UserAttribute`). -/
structure UserAttribute where
  ScopedDigest : GoString
  Creation : Int
  Expiration : Int
  State : Int
  Packet : List Nat
  PubkeyRFP : GoString
  SelfSignature : Option Signature
  Signatures : List Signature

/-- The `Subkey` entity (source struct `Subkey`). -/
structure Subkey where
  RFingerprint : GoString
  Creation : Int
  Expiration : Int
  State : Int
  Packet : List Nat
  PubkeyRFP : GoString
  RevsigDigest : GoString
  Algorithm : Int
  BitLen : Int
  Signatures : List Signature

/-- The `Pubkey` entity (source struct `Pubkey`), root of the tree. -/
structure Pubkey where
  RFingerprint : GoString
  Creation : Int
  Expiration : Int
  State : Int
  Packet : List Nat
  Ctime : Int
  Mtime : Int
  Md5 : GoString
  Sha256 : GoString
  RevsigDigest : GoString
  Algorithm : Int
  BitLen : Int
  Signatures : List Signature
  Subkeys : List Subkey
  UserIds : List UserId
  UserAttributes : List UserAttribute
  Revsig : Option Signature

/-- The `PacketRecord` capability: the value handed to a visitor
function. -/
inductive PacketRecord where
  | pubkey : Pubkey → PacketRecord
  | signature : Signature → PacketRecord
  | userId : UserId → PacketRecord
  | userAttribute : UserAttribute → PacketRecord
  | subkey : Subkey → PacketRecord

/-- Source `Pubkey.Fingerprint`: un-reverse the stored fingerprint. -/
def Pubkey.Fingerprint (pubkey : Pubkey) : GoString :=
  Reverse pubkey.RFingerprint

/-- Source `Pubkey.KeyId`: `Reverse(pubkey.RFingerprint[:16])`; the Go
slice panics (modelled `none`) when the stored field is shorter than 16
characters. -/
def Pubkey.KeyId (pubkey : Pubkey) : Option GoString :=
  (goSliceTo pubkey.RFingerprint 16).map Reverse

/-- Source `Pubkey.ShortId`: `Reverse(pubkey.RFingerprint[:8])`. -/
def Pubkey.ShortId (pubkey : Pubkey) : Option GoString :=
  (goSliceTo pubkey.RFingerprint 8).map Reverse

/-- Source `Subkey.Fingerprint`. -/
def Subkey.Fingerprint (subkey : Subkey) : GoString :=
  Reverse subkey.RFingerprint

/-- Source `Subkey.KeyId`: `Reverse(subkey.RFingerprint[:16])`. -/
def Subkey.KeyId (subkey : Subkey) : Option GoString :=
  (goSliceTo subkey.RFingerprint 16).map Reverse

/-- Source `Subkey.ShortId`: `Reverse(subkey.RFingerprint[:8])`. -/
def Subkey.ShortId (subkey : Subkey) : Option GoString :=
  (goSliceTo subkey.RFingerprint 8).map Reverse

/-- Source `Signature.IssuerKeyId`: un-reverse the stored issuer id. -/
def Signature.IssuerKeyId (sig : Signature) : GoString :=
  Reverse sig.RIssuerKeyId

/-- Source `Signature.IssuerFingerprint`. -/
def Signature.IssuerFingerprint (sig : Signature) : GoString :=
  Reverse sig.RIssuerFingerprint

/-- Source `Pubkey.SetPublicKey`: serialize the packet, compute the
fingerprint and bit length, reject sub-key packets, then overwrite the
searchable fields.  Returns the updated entity together with the error
slot; every error branch precedes the field assignments, so on error the
entity is returned unchanged, exactly as in the source. -/
def Pubkey.SetPublicKey (pubkey : Pubkey) (pk : PublicKey) : Pubkey × Option OpError :=
  let buf := serializePublicKey pk
  let fingerprint := FingerprintPk pk
  match pk.BitLength with
  | none => (pubkey, some OpError.BitLengthErr)
  | some bitLen =>
    if pk.IsSubkey then
      (pubkey, some OpError.InvalidPacketErr)
    else
      ({ pubkey with
          Packet := buf
          RFingerprint := Reverse fingerprint
          Creation := pk.CreationTime
          Algorithm := pk.PubKeyAlgo
          BitLen := bitLen }, none)

/-- Source `Pubkey.SetPacket`: type-assert a public-key packet, then
delegate to `SetPublicKey`. -/
def Pubkey.SetPacket (pubkey : Pubkey) (p : TypedPacket) : Pubkey × Option OpError :=
  match p with
  | .publicKey pk => pubkey.SetPublicKey pk
  | _ => (pubkey, some OpError.ErrInvalidPacketType)

/-- Source `Subkey.SetPublicKey`: like the Pubkey version but rejecting
primary-key packets (`!pk.IsSubkey`). -/
def Subkey.SetPublicKey (subkey : Subkey) (pk : PublicKey) : Subkey × Option OpError :=
  let buf := serializePublicKey pk
  let fingerprint := FingerprintPk pk
  match pk.BitLength with
  | none => (subkey, some OpError.BitLengthErr)
  | some bitLen =>
    if !pk.IsSubkey then
      (subkey, some OpError.InvalidPacketErr)
    else
      ({ subkey with
          Packet := buf
          RFingerprint := Reverse fingerprint
          Creation := pk.CreationTime
          Algorithm := pk.PubKeyAlgo
          BitLen := bitLen }, none)

/-- Source `Subkey.SetPacket`. -/
def Subkey.SetPacket (subkey : Subkey) (p : TypedPacket) : Subkey × Option OpError :=
  match p with
  | .publicKey pk => subkey.SetPublicKey pk
  | _ => (subkey, some OpError.ErrInvalidPacketType)

/-- Source `Signature.setPacketV4`: serialize (total to an in-memory
buffer), reject a missing issuer key id, then assign creation, packet
bytes, signature type, the reversed hex issuer key id, and (only when a
lifetime is present) the expiration. -/
def Signature.setPacketV4 (sig : Signature) (s : SigPacket) : Signature × Option OpError :=
  let buf := serializeSigPacket s
  match s.IssuerKeyId with
  | none => (sig, some OpError.MissingIssuer)
  | some kid =>
    match sig with
    | .mk dg _ exp st _ _ _ ifp rvd rv =>
      (.mk dg s.CreationTime
        (match s.SigLifetimeSecs with
         | some secs => s.CreationTime + Int.ofNat secs
         | none => exp)
        st buf s.SigType
        (Reverse (hexEncodeBytes (putUint64be kid)))
        ifp rvd rv, none)

/-- Source `Signature.SetSignature`: type-switch on the packet, handling
only signature packets. -/
def Signature.SetSignature (sig : Signature) (p : TypedPacket) : Signature × Option OpError :=
  match p with
  | .signature s => sig.setPacketV4 s
  | _ => (sig, some OpError.InvalidPacketType)

/-- Source `Signature.SetPacket`: delegates to `SetSignature`. -/
def Signature.SetPacket (sig : Signature) (p : TypedPacket) : Signature × Option OpError :=
  sig.SetSignature p

/-- Source `Signature.GetSignature`: decode the stored bytes (modelled by
the stand-in codec, which ignores framing beyond non-emptiness). -/
def Signature.GetSignature (sig : Signature) : Option (List Nat) :=
  if sig.Packet.isEmpty then none else some sig.Packet

/-- Source `UserId.SetUserId`: serialize the packet, store the bytes, and
recompute the sanitized keyword string. -/
def UserId.SetUserId (uid : UserId) (u : UserIdPacket) : UserId × Option OpError :=
  ({ uid with
      Packet := serializeUserIdPacket u
      Keywords := CleanUtf8 u.Id }, none)

/-- Source `UserId.SetPacket`: type-assert a user-id packet then delegate
to `SetUserId` (the source's `return SetUserId(u)` drops the receiver; the
intended receiver call is modelled). -/
def UserId.SetPacket (uid : UserId) (p : TypedPacket) : UserId × Option OpError :=
  match p with
  | .userId u => uid.SetUserId u
  | _ => (uid, some OpError.ErrInvalidPacketType)

/-- Source `UserId.GetUserId`, translated as written: the body reads
`bytes.NewBuffer(pubkey.Packet)` — the packet bytes of a `pubkey`
variable, not of the receiver `uid` — so the enclosing pubkey appears as
an extra argument here. -/
def UserId.GetUserId (_uid : UserId) (pubkey : Pubkey) : Option UserIdPacket :=
  decodeUserIdPacket pubkey.Packet

/-- Source `UserAttribute.GetOpaquePacket`: decode the stored bytes with
the opaque-packet reader. -/
def UserAttribute.GetOpaquePacket (uat : UserAttribute) : Option OpaquePacket :=
  decodeOpaquePacket uat.Packet

/-- Source `UserAttribute.GetPacket`: delegates to `GetOpaquePacket`. -/
def UserAttribute.GetPacket (uat : UserAttribute) : Option OpaquePacket :=
  uat.GetOpaquePacket

/-- Source `UserAttribute.SetOpaquePacket`: serialize and store. -/
def UserAttribute.SetOpaquePacket (uat : UserAttribute) (op : OpaquePacket) : UserAttribute × Option OpError :=
  ({ uat with Packet := serializeOpaquePacket op }, none)

/-- Source `UserAttribute.SetPacket`. -/
def UserAttribute.SetPacket (uat : UserAttribute) (p : TypedPacket) : UserAttribute × Option OpError :=
  match p with
  | .opaquePacket op => uat.SetOpaquePacket op
  | _ => (uat, some OpError.ErrInvalidPacketType)

/-- Source constant `ImageSubType`: image subpacket type tag. -/
def ImageSubType : Nat := 1

/-- Source constant `ImageSubOffset`: byte offset of image data in an
image subpacket. -/
def ImageSubOffset : Nat := 16

/-- The accumulation loop inside source `UserAttribute.GetJpegData`:
append the tail after `ImageSubOffset` of every image subpacket whose
contents extend beyond the offset. -/
def jpegLoop (subs : List OpaqueSubpacket) (result : List (List Nat)) : List (List Nat) :=
  match subs with
  | [] => result
  | sp :: rest =>
    if sp.SubType == ImageSubType && decide (ImageSubOffset < sp.Contents.length) then
      jpegLoop rest (result ++ [sp.Contents.drop ImageSubOffset])
    else
      jpegLoop rest result

/-- Source `UserAttribute.GetJpegData`: get the opaque packet, parse its
subpackets, and collect image buffers; both decode failures silently
yield the empty result. -/
def UserAttribute.GetJpegData (uat : UserAttribute) : List (List Nat) :=
  match uat.GetPacket with
  | none => []
  | some op =>
    match OpaqueSubpackets op.Contents with
    | none => []
    | some subpackets => jpegLoop subpackets []

/-- The source's per-signature-list visit loop (`for _, sig := range ...`
with early return on error), shared by every entity's `Visit`. -/
def visitList {α ε : Type} (f : α → Option ε) : List α → Option ε
  | [] => none
  | x :: xs =>
    match f x with
    | some e => some e
    | none => visitList f xs

/-- Source `Signature.Visit`: apply the visitor to the signature. -/
def Signature.Visit {ε : Type} (visitor : PacketRecord → Option ε) (sig : Signature) : Option ε :=
  visitor (.signature sig)

/-- Source `UserId.Visit`: self first, then the owned signatures. -/
def UserId.Visit {ε : Type} (visitor : PacketRecord → Option ε) (uid : UserId) : Option ε :=
  match visitor (.userId uid) with
  | some e => some e
  | none => visitList (fun sig => Signature.Visit visitor sig) uid.Signatures

/-- Source `UserAttribute.Visit`. -/
def UserAttribute.Visit {ε : Type} (visitor : PacketRecord → Option ε) (uat : UserAttribute) : Option ε :=
  match visitor (.userAttribute uat) with
  | some e => some e
  | none => visitList (fun sig => Signature.Visit visitor sig) uat.Signatures

/-- Source `Subkey.Visit`. -/
def Subkey.Visit {ε : Type} (visitor : PacketRecord → Option ε) (subkey : Subkey) : Option ε :=
  match visitor (.subkey subkey) with
  | some e => some e
  | none => visitList (fun sig => Signature.Visit visitor sig) subkey.Signatures

/-- Source `Pubkey.Visit`: self, then Signatures, UserIds,
UserAttributes, Subkeys, each loop returning the first error. -/
def Pubkey.Visit {ε : Type} (visitor : PacketRecord → Option ε) (pubkey : Pubkey) : Option ε :=
  match visitor (.pubkey pubkey) with
  | some e => some e
  | none =>
    match visitList (fun sig => Signature.Visit visitor sig) pubkey.Signatures with
    | some e => some e
    | none =>
      match visitList (fun uid => UserId.Visit visitor uid) pubkey.UserIds with
      | some e => some e
      | none =>
        match visitList (fun uat => UserAttribute.Visit visitor uat) pubkey.UserAttributes with
        | some e => some e
        | none => visitList (fun subkey => Subkey.Visit visitor subkey) pubkey.Subkeys

/-- External library constant `packet.SigTypePositiveCert` (0x13). -/
def SigTypePositiveCert : Int := 0x13

/-- The scan loop of source `UserId.SelfSignature` (the method, distinct
from the struct field of the same name): first signature of positive
certification type. -/
def resolveSelfSigUid : List Signature → Option Signature
  | [] => none
  | s :: rest =>
    if s.SigType = SigTypePositiveCert then some s else resolveSelfSigUid rest

/-- Source method `UserId.SelfSignature` (renamed `selfSignature` because
Lean reserves the projection name for the struct field). -/
def UserId.selfSignature (uid : UserId) : Option Signature :=
  resolveSelfSigUid uid.Signatures

/-- The scan loop of source `Pubkey.SelfSignature`: first signature whose
type is positive certification or the legacy 0x19 self-signature type. -/
def resolveSelfSigPubkey : List Signature → Option Signature
  | [] => none
  | s :: rest =>
    if s.SigType = SigTypePositiveCert then some s
    else if s.SigType = 0x19 then some s
    else resolveSelfSigPubkey rest

/-- Source method `Pubkey.SelfSignature` (renamed for the same reason). -/
def Pubkey.selfSignature (pk : Pubkey) : Option Signature :=
  resolveSelfSigPubkey pk.Signatures

/-- Source `Pubkey.AddSignature`. -/
def Pubkey.AddSignature (pubkey : Pubkey) (sig : Signature) : Pubkey :=
  { pubkey with Signatures := pubkey.Signatures ++ [sig] }

/-- Source `UserId.AddSignature`. -/
def UserId.AddSignature (uid : UserId) (sig : Signature) : UserId :=
  { uid with Signatures := uid.Signatures ++ [sig] }

/-- Source `UserAttribute.AddSignature`. -/
def UserAttribute.AddSignature (uat : UserAttribute) (sig : Signature) : UserAttribute :=
  { uat with Signatures := uat.Signatures ++ [sig] }

/-- Source `Subkey.AddSignature`. -/
def Subkey.AddSignature (subkey : Subkey) (sig : Signature) : Subkey :=
  { subkey with Signatures := subkey.Signatures ++ [sig] }

/-- Identity digest of a signature (its scoped digest, used by the merge
engine to detect duplicates). -/
def sigDigest (s : Signature) : GoString := s.ScopedDigest

/-- Modelled from the spec: the Merge Engine is not part of the visible
source (the spec notes the original exposes it only through the shape of
the data model).  Spec rule 1: signatures are unioned by scoped digest; a
signature present in only one side is carried untouched, one present in
both is kept once (the existing side's copy first). -/
def mergeSignatures (ex inc : List Signature) : List Signature :=
  ex ++ inc.filter (fun s => !(ex.any (fun t => sigDigest t == sigDigest s)))

/-- Modelled from the spec: the generic by-identity merge underlying
rules 2 and 3 of the Merge Engine.  Entities of the existing side are
matched against the incoming side by identity (`idf`); on a match the two
signature lists are merged by rule 1, otherwise the signature list is
kept; `upd` rebuilds the entity from its merged signature list (also
re-running the Self-Signature Resolver, spec rule 4).  Incoming entities
with no existing match are carried over with their full signature list. -/
def mergeById {α : Type} (idf : α → GoString) (sg : α → List Signature)
    (upd : α → List Signature → α) (ex inc : List α) : List α :=
  ex.map (fun u =>
    match inc.find? (fun v => idf v == idf u) with
    | some v => upd u (mergeSignatures (sg u) (sg v))
    | none => upd u (sg u))
  ++ (inc.filter (fun v => !(ex.any (fun u => idf u == idf v)))).map (fun v => upd v (sg v))

/-- Modelled from the spec: rebuild a merged `UserId` from its merged
signature list, re-running the Self-Signature Resolver (spec rule 4). -/
def updUserId (u : UserId) (sigs : List Signature) : UserId :=
  { u with Signatures := sigs, SelfSignature := resolveSelfSigUid sigs }

/-- Modelled from the spec: rebuild a merged `UserAttribute` similarly. -/
def updUserAttribute (a : UserAttribute) (sigs : List Signature) : UserAttribute :=
  { a with Signatures := sigs, SelfSignature := resolveSelfSigUid sigs }

/-- Modelled from the spec: rebuild a merged `Subkey` from its merged
signature list (subkeys cache no self-signature reference). -/
def updSubkey (k : Subkey) (sigs : List Signature) : Subkey :=
  { k with Signatures := sigs }

/-- Modelled from the spec: Merge Engine rule 2 for user IDs, matched
across the two trees by identity digest. -/
def mergeUserIds (ex inc : List UserId) : List UserId :=
  mergeById UserId.ScopedDigest UserId.Signatures updUserId ex inc

/-- Modelled from the spec: Merge Engine rule 2 for user attributes. -/
def mergeUserAttributes (ex inc : List UserAttribute) : List UserAttribute :=
  mergeById UserAttribute.ScopedDigest UserAttribute.Signatures updUserAttribute ex inc

/-- Modelled from the spec: Merge Engine rule 3 for subkeys, matched by
reversed fingerprint. -/
def mergeSubkeys (ex inc : List Subkey) : List Subkey :=
  mergeById Subkey.RFingerprint Subkey.Signatures updSubkey ex inc

/-- Modelled from the spec: the structural union of two Pubkey trees
(Merge Engine rules 1-4).  Scalar fields come from the existing side.
Rule 5 (recomputing the `State` flag and the cached `Revsig` from the
merged signatures, revocation scoping and current time) is outside the
pure data model and is not needed by the digest-set properties. -/
def mergePubkeys (ex inc : Pubkey) : Pubkey :=
  { ex with
      Signatures := mergeSignatures ex.Signatures inc.Signatures
      UserIds := mergeUserIds ex.UserIds inc.UserIds
      UserAttributes := mergeUserAttributes ex.UserAttributes inc.UserAttributes
      Subkeys := mergeSubkeys ex.Subkeys inc.Subkeys }

/-- Modelled from the spec: `merge(existing, incoming)` with its
precondition — a fingerprint mismatch is a fatal caller error. -/
def merge (ex inc : Pubkey) : Except OpError Pubkey :=
  if ex.RFingerprint = inc.RFingerprint then Except.ok (mergePubkeys ex inc)
  else Except.error OpError.FingerprintMismatch

/-- Every signature identity digest stored anywhere in a Pubkey tree: the
key's own signatures and those owned by its user IDs, user attributes and
subkeys. -/
def allSigDigests (p : Pubkey) : List GoString :=
  p.Signatures.map sigDigest
    ++ p.UserIds.flatMap (fun u => u.Signatures.map sigDigest)
    ++ p.UserAttributes.flatMap (fun a => a.Signatures.map sigDigest)
    ++ p.Subkeys.flatMap (fun k => k.Signatures.map sigDigest)

/-- The user-id identity digests of a tree. -/
def uidDigests (p : Pubkey) : List GoString := p.UserIds.map UserId.ScopedDigest

/-- The user-attribute identity digests of a tree. -/
def uatDigests (p : Pubkey) : List GoString := p.UserAttributes.map UserAttribute.ScopedDigest

/-- The subkey identity digests (reversed fingerprints) of a tree. -/
def subkeyDigests (p : Pubkey) : List GoString := p.Subkeys.map Subkey.RFingerprint

/-- A canonical (deduplicated, derived-state-consistent) tree: entity
identity digests are pairwise distinct per kind, and every cached
`SelfSignature` agrees with the Self-Signature Resolver, as holds for any
tree produced by ingestion or by the merge itself. -/
def canonicalPubkey (p : Pubkey) : Prop :=
  (uidDigests p).Nodup ∧ (uatDigests p).Nodup ∧ (subkeyDigests p).Nodup ∧
    (∀ u ∈ p.UserIds, u.SelfSignature = resolveSelfSigUid u.Signatures) ∧
    (∀ a ∈ p.UserAttributes, a.SelfSignature = resolveSelfSigUid a.Signatures)

/-- The pre-order traversal sequence the spec fixes for `Visit`: the
Pubkey itself, its signatures, each user ID followed by its signatures,
each user attribute followed by its signatures, each subkey followed by
its signatures. -/
def preorderRecords (p : Pubkey) : List PacketRecord :=
  PacketRecord.pubkey p ::
    (p.Signatures.map PacketRecord.signature
      ++ p.UserIds.flatMap (fun u => PacketRecord.userId u :: u.Signatures.map PacketRecord.signature)
      ++ p.UserAttributes.flatMap (fun a => PacketRecord.userAttribute a :: a.Signatures.map PacketRecord.signature)
      ++ p.Subkeys.flatMap (fun k => PacketRecord.subkey k :: k.Signatures.map PacketRecord.signature))

/-- The image-extraction result as the spec words it: one buffer, the
contents after the header offset, for exactly the image-typed subpackets
whose contents extend beyond the offset; the empty sequence on any decode
failure. -/
def jpegImagesSpec (uat : UserAttribute) : List (List Nat) :=
  match uat.GetPacket with
  | none => []
  | some op =>
    match OpaqueSubpackets op.Contents with
    | none => []
    | some subpackets =>
      (subpackets.filter (fun sp =>
          sp.SubType == ImageSubType && decide (ImageSubOffset < sp.Contents.length))).map
        (fun sp => sp.Contents.drop ImageSubOffset)

/-- A baseline empty signature, for concrete test trees. -/
def baseSignature : Signature := .mk [] 0 0 0 [] 0 [] [] [] none

/-- A baseline empty pubkey, for concrete test trees. -/
def basePubkey : Pubkey :=
  { RFingerprint := [], Creation := 0, Expiration := 0, State := 0, Packet := [],
    Ctime := 0, Mtime := 0, Md5 := [], Sha256 := [], RevsigDigest := [],
    Algorithm := 0, BitLen := 0, Signatures := [], Subkeys := [], UserIds := [],
    UserAttributes := [], Revsig := none }

/-- A baseline empty subkey. -/
def baseSubkey : Subkey :=
  { RFingerprint := [], Creation := 0, Expiration := 0, State := 0, Packet := [],
    PubkeyRFP := [], RevsigDigest := [], Algorithm := 0, BitLen := 0, Signatures := [] }

/-- A baseline empty user id. -/
def baseUserId : UserId :=
  { ScopedDigest := [], Creation := 0, Expiration := 0, State := 0, Packet := [],
    PubkeyRFP := [], Keywords := [], SelfSignature := none, Signatures := [] }

/-- A baseline empty user attribute. -/
def baseUserAttribute : UserAttribute :=
  { ScopedDigest := [], Creation := 0, Expiration := 0, State := 0, Packet := [],
    PubkeyRFP := [], SelfSignature := none, Signatures := [] }

/-- A signature with only its identity digest set. -/
def mkSigD (d : GoString) : Signature := .mk d 0 0 0 [] 0 [] [] [] none

/-- Concrete merge input: a tree with one key signature and one user id. -/
def mergeTreeA : Pubkey :=
  { basePubkey with
      RFingerprint := ['f'],
      Signatures := [mkSigD ['a']],
      UserIds := [{ baseUserId with ScopedDigest := ['u'], Signatures := [mkSigD ['c']] }] }

/-- Concrete merge input: same fingerprint, different signature, and the
same user id carrying a different certification. -/
def mergeTreeB : Pubkey :=
  { basePubkey with
      RFingerprint := ['f'],
      Signatures := [mkSigD ['b']],
      UserIds := [{ baseUserId with ScopedDigest := ['u'], Signatures := [mkSigD ['d']] }] }

/-- Rebuild a signature with a given stored (reversed) issuer key id,
other fields untouched. -/
def Signature.withRIssuerKeyId (sig : Signature) (x : GoString) : Signature :=
  match sig with
  | .mk d c e st p t _ f rd rv => .mk d c e st p t x f rd rv

/-- A concrete canonical 16-character hex fingerprint. -/
def fp16 : GoString :=
  ['d', 'e', 'a', 'd', 'b', 'e', 'e', 'f', '1', '0', '2', '0', '3', '0', '4', '0']

/-- A pubkey whose stored fingerprint is the reversal of `fp16`. -/
def pubkeyFp16 : Pubkey := { basePubkey with RFingerprint := Reverse fp16 }

/-- A subkey whose stored fingerprint is the reversal of `fp16`. -/
def subkeyFp16 : Subkey := { baseSubkey with RFingerprint := Reverse fp16 }

/-- A concrete sub-key-flagged public-key packet with supported
algorithm. -/
def pkSubFlagged : PublicKey :=
  { IsSubkey := true, CreationTime := 7, PubKeyAlgo := 1, Material := [4, 2], BitLength := some 2048 }

/-- A concrete primary-key-flagged public-key packet. -/
def pkPrimFlagged : PublicKey :=
  { IsSubkey := false, CreationTime := 7, PubKeyAlgo := 1, Material := [4, 2], BitLength := some 2048 }

/-- A concrete signature packet lacking an issuer key id. -/
def sigPacketNoIssuer : SigPacket :=
  { CreationTime := 3, SigType := 0x13, IssuerKeyId := none, SigLifetimeSecs := none }

/-- A concrete signature packet carrying an issuer key id. -/
def sigPacketIssuer : SigPacket :=
  { CreationTime := 3, SigType := 0x13, IssuerKeyId := some 5, SigLifetimeSecs := some 60 }

/-- A concrete user-id packet. -/
def uidPacketX : UserIdPacket := ⟨['x']⟩

/-- A pubkey whose stored packet bytes differ from `uidPacketX`'s
serialization. -/
def pubkeyOtherBytes : Pubkey := { basePubkey with Packet := [9, 9] }

theorem reverse_take_reverse_eq_drop (l : GoString) (n : Nat) :
    Reverse ((Reverse l).take n) = l.drop (l.length - n) := by
  simpa [Reverse, List.rtake] using (List.rtake_eq_reverse_take_reverse (l := l) (n := n)).symm

/-- C9: string reversal is an involution, so the `Fingerprint` and
`IssuerKeyId` views applied to a stored reversed field recover the
original canonical string. -/
theorem reverse_involution_views (s : GoString) (p : Pubkey) (sig : Signature) :
    Reverse (Reverse s) = s ∧
    Pubkey.Fingerprint { p with RFingerprint := Reverse s } = s ∧
    Signature.IssuerKeyId (sig.withRIssuerKeyId (Reverse s)) = s := by
  refine ⟨List.reverse_reverse s, ?_, ?_⟩
  · simp [Pubkey.Fingerprint, Reverse]
  · cases sig
    simp [Signature.withRIssuerKeyId, Signature.IssuerKeyId, Signature.RIssuerKeyId, Reverse]

/-- C3: when the stored `RFingerprint` is the reversal of a canonical hex
fingerprint of at least 16 characters, `KeyId` returns the last 16 hex
characters of the unreversed fingerprint in canonical order and `ShortId`
the last 8 (the low-order bytes), for pubkeys and subkeys alike. -/
theorem keyId_shortId_low_order_hex (p : Pubkey) (k : Subkey) (fp fps : GoString)
    (hp : p.RFingerprint = Reverse fp) (hfp : 16 ≤ fp.length)
    (hk : k.RFingerprint = Reverse fps) (hfps : 16 ≤ fps.length) :
    p.KeyId = some (fp.drop (fp.length - 16)) ∧
    p.ShortId = some (fp.drop (fp.length - 8)) ∧
    k.KeyId = some (fps.drop (fps.length - 16)) ∧
    k.ShortId = some (fps.drop (fps.length - 8)) := by
  have h16 : (16 : Nat) ≤ (Reverse fp).length := by simpa [Reverse] using hfp
  have h8 : (8 : Nat) ≤ (Reverse fp).length := by omega
  have h16s : (16 : Nat) ≤ (Reverse fps).length := by simpa [Reverse] using hfps
  have h8s : (8 : Nat) ≤ (Reverse fps).length := by omega
  refine ⟨?_, ?_, ?_, ?_⟩
  · rw [Pubkey.KeyId, hp, goSliceTo, if_pos h16]
    simp [reverse_take_reverse_eq_drop]
  · rw [Pubkey.ShortId, hp, goSliceTo, if_pos h8]
    simp [reverse_take_reverse_eq_drop]
  · rw [Subkey.KeyId, hk, goSliceTo, if_pos h16s]
    simp [reverse_take_reverse_eq_drop]
  · rw [Subkey.ShortId, hk, goSliceTo, if_pos h8s]
    simp [reverse_take_reverse_eq_drop]

theorem keyId_shortId_low_order_hex_witness :
    pubkeyFp16.RFingerprint = Reverse fp16 ∧ 16 ≤ fp16.length ∧
    Pubkey.KeyId pubkeyFp16 = some (fp16.drop (fp16.length - 16)) ∧
    Pubkey.ShortId pubkeyFp16 = some (fp16.drop (fp16.length - 8)) ∧
    Subkey.KeyId subkeyFp16 = some (fp16.drop (fp16.length - 16)) ∧
    Subkey.ShortId subkeyFp16 = some (fp16.drop (fp16.length - 8)) := by
  have h := keyId_shortId_low_order_hex pubkeyFp16 subkeyFp16 fp16 fp16
    rfl (by decide) rfl (by decide)
  exact ⟨rfl, by decide, h.1, h.2.1, h.2.2.1, h.2.2.2⟩

/-- C10: `KeyId` and `ShortId` slice the stored fingerprint with no
bounds check, so they are defined exactly when `RFingerprint` has at
least 16 (resp. 8) characters — in bounds they return the reversed
prefix, and a shorter field makes the call partial (the Go original
panics, modelled as `none`). -/
theorem keyId_shortId_bounds (p : Pubkey) (k : Subkey) :
    (p.KeyId = some (Reverse (p.RFingerprint.take 16)) ↔ 16 ≤ p.RFingerprint.length) ∧
    (p.ShortId = some (Reverse (p.RFingerprint.take 8)) ↔ 8 ≤ p.RFingerprint.length) ∧
    (k.KeyId = some (Reverse (k.RFingerprint.take 16)) ↔ 16 ≤ k.RFingerprint.length) ∧
    (k.ShortId = some (Reverse (k.RFingerprint.take 8)) ↔ 8 ≤ k.RFingerprint.length) := by
  refine ⟨?_, ?_, ?_, ?_⟩ <;>
    simp [Pubkey.KeyId, Pubkey.ShortId, Subkey.KeyId, Subkey.ShortId, goSliceTo]

/-- C2 (code bug): `UserId.GetUserId` reads the packet bytes of the
out-of-scope variable `pubkey` instead of the receiver's own stored
`Packet`, so a set followed by a get does not return the stored packet:
here the set stores the serialization of the packet, yet the get decodes
the enclosing pubkey's unrelated bytes. -/
theorem userid_get_after_set_reads_wrong_packet :
    (UserId.SetUserId baseUserId uidPacketX).1.Packet = serializeUserIdPacket uidPacketX ∧
    (UserId.SetUserId baseUserId uidPacketX).2 = none ∧
    UserId.GetUserId (UserId.SetUserId baseUserId uidPacketX).1 pubkeyOtherBytes ≠
      some uidPacketX := by
  decide

/-- C4: assigning a sub-key-flagged packet to a Pubkey, or a primary-key
packet to a Subkey (directly or through `SetPacket`), returns the
packet-type error and returns the entity with every field unchanged; the
hypotheses record that the external `BitLength` call succeeds on the
well-formed packet, as it does for every packet the codec can produce. -/
theorem set_public_key_type_guard (pubkey : Pubkey) (subkey : Subkey) (pk qk : PublicKey)
    (hpk : pk.IsSubkey = true) (hqk : qk.IsSubkey = false)
    (hbp : pk.BitLength.isSome) (hbq : qk.BitLength.isSome) :
    Pubkey.SetPublicKey pubkey pk = (pubkey, some OpError.InvalidPacketErr) ∧
    Pubkey.SetPacket pubkey (TypedPacket.publicKey pk) = (pubkey, some OpError.InvalidPacketErr) ∧
    Subkey.SetPublicKey subkey qk = (subkey, some OpError.InvalidPacketErr) ∧
    Subkey.SetPacket subkey (TypedPacket.publicKey qk) = (subkey, some OpError.InvalidPacketErr) := by
  obtain ⟨n, hn⟩ := Option.isSome_iff_exists.mp hbp
  obtain ⟨m, hm⟩ := Option.isSome_iff_exists.mp hbq
  refine ⟨?_, ?_, ?_, ?_⟩ <;>
    simp [Pubkey.SetPublicKey, Pubkey.SetPacket, Subkey.SetPublicKey, Subkey.SetPacket,
      hn, hm, hpk, hqk]

theorem set_public_key_type_guard_witness :
    pkSubFlagged.IsSubkey = true ∧ pkPrimFlagged.IsSubkey = false ∧
    pkSubFlagged.BitLength.isSome = true ∧ pkPrimFlagged.BitLength.isSome = true ∧
    Pubkey.SetPublicKey basePubkey pkSubFlagged = (basePubkey, some OpError.InvalidPacketErr) ∧
    Pubkey.SetPacket basePubkey (TypedPacket.publicKey pkSubFlagged) =
      (basePubkey, some OpError.InvalidPacketErr) ∧
    Subkey.SetPublicKey baseSubkey pkPrimFlagged = (baseSubkey, some OpError.InvalidPacketErr) ∧
    Subkey.SetPacket baseSubkey (TypedPacket.publicKey pkPrimFlagged) =
      (baseSubkey, some OpError.InvalidPacketErr) := by
  have h := set_public_key_type_guard basePubkey baseSubkey pkSubFlagged pkPrimFlagged
    rfl rfl (by decide) (by decide)
  exact ⟨rfl, rfl, by decide, by decide, h.1, h.2.1, h.2.2.1, h.2.2.2⟩

/-- C5: a signature packet lacking an issuer key id is rejected by
`setPacketV4` with an error and the signature entity is returned with no
field modified; and every signature whose `SetPacket` succeeded carries a
non-empty (16 hex character) stored issuer key id. -/
theorem signature_issuer_required (sig : Signature) (s : SigPacket) (p : TypedPacket) :
    (s.IssuerKeyId = none →
      Signature.setPacketV4 sig s = (sig, some OpError.MissingIssuer)) ∧
    ((Signature.SetPacket sig p).2 = none →
      ((Signature.SetPacket sig p).1).RIssuerKeyId.length = 16) := by
  constructor
  · intro h
    simp [Signature.setPacketV4, h]
  · intro h
    cases p with
    | signature sp =>
      simp only [Signature.SetPacket, Signature.SetSignature] at h ⊢
      cases hsp : sp.IssuerKeyId with
      | none => simp [Signature.setPacketV4, hsp] at h
      | some kid =>
        cases sig with
        | mk d c e st pk t i f rd rv =>
          simp [Signature.setPacketV4, hsp, Signature.RIssuerKeyId, Reverse,
            hexEncodeBytes, putUint64be, byteHex]
    | publicKey pk => simp [Signature.SetPacket, Signature.SetSignature] at h
    | userId u => simp [Signature.SetPacket, Signature.SetSignature] at h
    | opaquePacket op => simp [Signature.SetPacket, Signature.SetSignature] at h

theorem signature_issuer_required_witness :
    sigPacketNoIssuer.IssuerKeyId = none ∧
    Signature.setPacketV4 baseSignature sigPacketNoIssuer =
      (baseSignature, some OpError.MissingIssuer) ∧
    (Signature.SetPacket baseSignature (TypedPacket.signature sigPacketIssuer)).2 = none ∧
    ((Signature.SetPacket baseSignature (TypedPacket.signature sigPacketIssuer)).1).RIssuerKeyId.length = 16 := by
  have h := signature_issuer_required baseSignature sigPacketNoIssuer
    (TypedPacket.signature sigPacketIssuer)
  refine ⟨rfl, h.1 rfl, by decide, h.2 (by decide)⟩

theorem visitList_eq_findSome {α ε : Type} (f : α → Option ε) (l : List α) :
    visitList f l = l.findSome? f := by
  induction l with
  | nil => rfl
  | cons x xs ih =>
    cases hfx : f x with
    | some e => simp [visitList, List.findSome?_cons, hfx]
    | none => simp [visitList, List.findSome?_cons, hfx, ih]

theorem findSome?_flatMap_eq {α β ε : Type} (f : β → Option ε) (g : α → List β) (l : List α) :
    (l.flatMap g).findSome? f = l.findSome? (fun x => (g x).findSome? f) := by
  induction l with
  | nil => rfl
  | cons x xs ih =>
    rw [List.flatMap_cons, List.findSome?_append, ih, List.findSome?_cons]
    cases hgx : (g x).findSome? f with
    | some e => simp
    | none => simp [Option.none_or]

theorem uid_visit_as_findSome {ε : Type} (v : PacketRecord → Option ε) (u : UserId) :
    (PacketRecord.userId u :: u.Signatures.map PacketRecord.signature).findSome? v =
      UserId.Visit v u := by
  rw [List.findSome?_cons]
  cases hv : v (.userId u) with
  | some e => simp [UserId.Visit, hv]
  | none =>
    simp only [UserId.Visit, hv, List.findSome?_map, visitList_eq_findSome]
    rfl

theorem uat_visit_as_findSome {ε : Type} (v : PacketRecord → Option ε) (a : UserAttribute) :
    (PacketRecord.userAttribute a :: a.Signatures.map PacketRecord.signature).findSome? v =
      UserAttribute.Visit v a := by
  rw [List.findSome?_cons]
  cases hv : v (.userAttribute a) with
  | some e => simp [UserAttribute.Visit, hv]
  | none =>
    simp only [UserAttribute.Visit, hv, List.findSome?_map, visitList_eq_findSome]
    rfl

theorem subkey_visit_as_findSome {ε : Type} (v : PacketRecord → Option ε) (k : Subkey) :
    (PacketRecord.subkey k :: k.Signatures.map PacketRecord.signature).findSome? v =
      Subkey.Visit v k := by
  rw [List.findSome?_cons]
  cases hv : v (.subkey k) with
  | some e => simp [Subkey.Visit, hv]
  | none =>
    simp only [Subkey.Visit, hv, List.findSome?_map, visitList_eq_findSome]
    rfl

/-- C6: `Visit` applies the visitor in exactly the fixed pre-order
sequence — the Pubkey itself, its signatures, each user id followed by
its signatures, each user attribute followed by its signatures, each
subkey followed by its signatures — and returns the first error the
visitor produces (unchanged), aborting the rest of the walk; it returns
`none` when the visitor never errs. -/
theorem visit_preorder_first_error {ε : Type} (v : PacketRecord → Option ε) (p : Pubkey) :
    Pubkey.Visit v p = (preorderRecords p).findSome? v := by
  rw [preorderRecords, List.findSome?_cons]
  cases hv : v (.pubkey p) with
  | some e => simp [Pubkey.Visit, hv]
  | none =>
    simp only [Pubkey.Visit, hv]
    rw [List.findSome?_append, List.findSome?_append, List.findSome?_append]
    rw [findSome?_flatMap_eq, findSome?_flatMap_eq, findSome?_flatMap_eq]
    simp only [uid_visit_as_findSome, uat_visit_as_findSome, subkey_visit_as_findSome]
    simp only [List.findSome?_map, visitList_eq_findSome]
    cases h1 : p.Signatures.findSome? (v ∘ PacketRecord.signature) with
    | some e =>
      have : p.Signatures.findSome? (fun sig => Signature.Visit v sig) = some e := h1
      simp [this]
    | none =>
      have h1e : p.Signatures.findSome? (fun sig => Signature.Visit v sig) = none := h1
      simp only [h1e, Option.none_or]
      cases h2 : p.UserIds.findSome? (fun u => UserId.Visit v u) with
      | some e => simp [h2]
      | none =>
        simp only [h2, Option.none_or]
        cases h3 : p.UserAttributes.findSome? (fun a => UserAttribute.Visit v a) with
        | some e => simp [h3]
        | none => simp [h3, Option.none_or]

theorem resolveSelfSigUid_eq_find (l : List Signature) :
    resolveSelfSigUid l = l.find? (fun s => s.SigType == SigTypePositiveCert) := by
  induction l with
  | nil => rfl
  | cons s rest ih =>
    by_cases h : s.SigType = SigTypePositiveCert
    · simp [resolveSelfSigUid, List.find?_cons, h]
    · simp [resolveSelfSigUid, List.find?_cons, h, ih]

theorem resolveSelfSigPubkey_eq_find (l : List Signature) :
    resolveSelfSigPubkey l =
      l.find? (fun s => s.SigType == SigTypePositiveCert || s.SigType == (0x19 : Int)) := by
  induction l with
  | nil => rfl
  | cons s rest ih =>
    by_cases h : s.SigType = SigTypePositiveCert
    · simp [resolveSelfSigPubkey, List.find?_cons, h]
    · by_cases h19 : s.SigType = (0x19 : Int)
      · simp [resolveSelfSigPubkey, List.find?_cons, h, h19]
      · simp [resolveSelfSigPubkey, List.find?_cons, h, h19, ih]

/-- C7: self-signature resolution returns the first signature in stored
list order whose type is positive certification (0x13) for a user id,
and the first whose type is positive certification or the legacy 0x19
self-signature type for a pubkey; `find?` returning `none` when nothing
matches is the "no self-signature" result. -/
theorem self_signature_first_match (uid : UserId) (p : Pubkey) :
    uid.selfSignature = uid.Signatures.find? (fun s => s.SigType == SigTypePositiveCert) ∧
    p.selfSignature =
      p.Signatures.find? (fun s => s.SigType == SigTypePositiveCert || s.SigType == (0x19 : Int)) := by
  exact ⟨resolveSelfSigUid_eq_find uid.Signatures, resolveSelfSigPubkey_eq_find p.Signatures⟩

theorem jpegLoop_eq_filter_map (subs : List OpaqueSubpacket) (acc : List (List Nat)) :
    jpegLoop subs acc =
      acc ++ (subs.filter (fun sp =>
          sp.SubType == ImageSubType && decide (ImageSubOffset < sp.Contents.length))).map
        (fun sp => sp.Contents.drop ImageSubOffset) := by
  induction subs generalizing acc with
  | nil => simp [jpegLoop]
  | cons sp rest ih =>
    by_cases h : sp.SubType == ImageSubType && decide (ImageSubOffset < sp.Contents.length)
    · simp [jpegLoop, h, ih, List.filter_cons]
    · simp [jpegLoop, h, ih, List.filter_cons]

/-- C8: image extraction yields exactly one buffer — the contents after
the 16-byte header offset — per subpacket whose type tag is the image
constant and whose contents extend strictly beyond the offset;
image-typed subpackets no longer than the offset contribute nothing, and
a failure to decode the opaque packet or its subpackets yields the empty
result with no error surfaced. -/
theorem jpeg_extraction_bounds (uat : UserAttribute) :
    uat.GetJpegData = jpegImagesSpec uat := by
  cases hp : uat.GetPacket with
  | none => simp [UserAttribute.GetJpegData, jpegImagesSpec, hp]
  | some op =>
    cases hs : OpaqueSubpackets op.Contents with
    | none => simp [UserAttribute.GetJpegData, jpegImagesSpec, hp, hs]
    | some subpackets =>
      simp [UserAttribute.GetJpegData, jpegImagesSpec, hp, hs, jpegLoop_eq_filter_map]

theorem mem_sigDigest_mergeSignatures (ex inc : List Signature) (d : GoString) :
    d ∈ (mergeSignatures ex inc).map sigDigest ↔
      d ∈ ex.map sigDigest ∨ d ∈ inc.map sigDigest := by
  unfold mergeSignatures
  constructor
  · intro h
    rcases List.mem_map.mp h with ⟨s, hs, rfl⟩
    rcases List.mem_append.mp hs with h1 | h2
    · exact Or.inl (List.mem_map_of_mem sigDigest h1)
    · exact Or.inr (List.mem_map_of_mem sigDigest (List.mem_of_mem_filter h2))
  · intro h
    rcases h with h | h
    · rcases List.mem_map.mp h with ⟨s, hs, rfl⟩
      exact List.mem_map_of_mem sigDigest (List.mem_append_left _ hs)
    · rcases List.mem_map.mp h with ⟨s, hs, rfl⟩
      by_cases hex : ex.any (fun t => sigDigest t == sigDigest s) = true
      · rcases List.any_eq_true.mp hex with ⟨t, ht, hbeq⟩
        have heq : sigDigest t = sigDigest s := by simpa using hbeq
        exact List.mem_map.mpr ⟨t, List.mem_append_left _ ht, heq⟩
      · have hcond : (!(ex.any (fun t => sigDigest t == sigDigest s))) = true := by
          simp only [Bool.not_eq_true] at hex
          simp [hex]
        exact List.mem_map_of_mem sigDigest
          (List.mem_append_right _ (List.mem_filter.mpr ⟨hs, hcond⟩))

theorem mergeSignatures_self (l : List Signature) : mergeSignatures l l = l := by
  unfold mergeSignatures
  have hfil : l.filter (fun s => !(l.any (fun t => sigDigest t == sigDigest s))) = [] := by
    refine List.filter_eq_nil_iff.mpr ?_
    intro s hs
    have : l.any (fun t => sigDigest t == sigDigest s) = true :=
      List.any_eq_true.mpr ⟨s, hs, by simp⟩
    simp [this]
  simp [hfil]

theorem find?_beq_of_nodup {α : Type} (idf : α → GoString) (l : List α)
    (h : (l.map idf).Nodup) (v : α) (hv : v ∈ l) :
    l.find? (fun w => idf w == idf v) = some v := by
  induction l with
  | nil => cases hv
  | cons x xs ih =>
    rw [List.map_cons, List.nodup_cons] at h
    rcases List.mem_cons.mp hv with rfl | hxs
    · simp [List.find?_cons]
    · have hx : idf x ≠ idf v := by
        intro he
        exact h.1 (he ▸ List.mem_map_of_mem idf hxs)
    
      have hbeq : (idf x == idf v) = false := beq_eq_false_iff_ne.mpr hx
      simp [List.find?_cons, hbeq, ih h.2 hxs]

theorem mem_mergeById {α : Type} (idf : α → GoString) (sg : α → List Signature)
    (upd : α → List Signature → α) (ex inc : List α) (w : α) :
    w ∈ mergeById idf sg upd ex inc ↔
      ((∃ u ∈ ex, w = (match inc.find? (fun v => idf v == idf u) with
          | some v => upd u (mergeSignatures (sg u) (sg v))
          | none => upd u (sg u))) ∨
       (∃ v ∈ inc, (ex.any (fun u => idf u == idf v)) = false ∧ w = upd v (sg v))) := by
  unfold mergeById
  simp only [List.mem_append, List.mem_map, List.mem_filter, Bool.not_eq_true']
  constructor
  · rintro (⟨u, hu, rfl⟩ | ⟨v, ⟨hv, hany⟩, rfl⟩)
    · exact Or.inl ⟨u, hu, rfl⟩
    · exact Or.inr ⟨v, hv, hany, rfl⟩
  · rintro (⟨u, hu, rfl⟩ | ⟨v, hv, hany, rfl⟩)
    · exact Or.inl ⟨u, hu, rfl⟩
    · exact Or.inr ⟨v, ⟨hv, hany⟩, rfl⟩

theorem mergeById_id_mem {α : Type} (idf : α → GoString) (sg : α → List Signature)
    (upd : α → List Signature → α)
    (hid : ∀ u s, idf (upd u s) = idf u)
    (ex inc : List α) (d : GoString) :
    d ∈ (mergeById idf sg upd ex inc).map idf ↔ d ∈ ex.map idf ∨ d ∈ inc.map idf := by
  constructor
  · intro h
    rcases List.mem_map.mp h with ⟨w, hw, rfl⟩
    rcases (mem_mergeById idf sg upd ex inc w).mp hw with ⟨u, hu, rfl⟩ | ⟨v, hv, _, rfl⟩
    · left
      cases hf : inc.find? (fun v => idf v == idf u) <;>
        simp only [hf, hid] <;> exact List.mem_map_of_mem idf hu
    · right
      rw [hid]
      exact List.mem_map_of_mem idf hv
  · intro h
    rcases h with h | h
    · rcases List.mem_map.mp h with ⟨u, hu, rfl⟩
      refine List.mem_map.mpr ⟨(match inc.find? (fun v => idf v == idf u) with
        | some v => upd u (mergeSignatures (sg u) (sg v))
        | none => upd u (sg u)), ?_, ?_⟩
      · exact (mem_mergeById idf sg upd ex inc _).mpr (Or.inl ⟨u, hu, rfl⟩)
      · cases hf : inc.find? (fun v => idf v == idf u) <;> simp only [hf, hid]
    · rcases List.mem_map.mp h with ⟨v, hv, rfl⟩
      by_cases hex : ex.any (fun u => idf u == idf v) = true
      · rcases List.any_eq_true.mp hex with ⟨u, hu, hbeq⟩
        have heq : idf u = idf v := by simpa using hbeq
        refine List.mem_map.mpr ⟨(match inc.find? (fun w => idf w == idf u) with
          | some w => upd u (mergeSignatures (sg u) (sg w))
          | none => upd u (sg u)), ?_, ?_⟩
        · exact (mem_mergeById idf sg upd ex inc _).mpr (Or.inl ⟨u, hu, rfl⟩)
        · cases hf : inc.find? (fun w => idf w == idf u) <;> simp only [hf, hid] <;> exact heq
      · refine List.mem_map.mpr ⟨upd v (sg v), ?_, hid v (sg v)⟩
        refine (mem_mergeById idf sg upd ex inc _).mpr
          (Or.inr ⟨v, hv, ?_, rfl⟩)
        exact Bool.eq_false_iff.mpr hex

theorem mergeById_sig_mem {α : Type} (idf : α → GoString) (sg : α → List Signature)
    (upd : α → List Signature → α)
    (hsg : ∀ u s, sg (upd u s) = s)
    (ex inc : List α) (hnodup : (inc.map idf).Nodup) (d : GoString) :
    d ∈ (mergeById idf sg upd ex inc).flatMap (fun u => (sg u).map sigDigest) ↔
      d ∈ ex.flatMap (fun u => (sg u).map sigDigest) ∨
      d ∈ inc.flatMap (fun u => (sg u).map sigDigest) := by
  constructor
  · intro h
    rcases List.mem_flatMap.mp h with ⟨w, hw, hd⟩
    rcases (mem_mergeById idf sg upd ex inc w).mp hw with ⟨u, hu, rfl⟩ | ⟨v, hv, _, rfl⟩
    · cases hf : inc.find? (fun v => idf v == idf u) with
      | some v =>
        rw [hf] at hd
        rw [hsg] at hd
        rcases (mem_sigDigest_mergeSignatures (sg u) (sg v) d).mp hd with h1 | h2
        · exact Or.inl (List.mem_flatMap.mpr ⟨u, hu, h1⟩)
        · exact Or.inr (List.mem_flatMap.mpr ⟨v, List.mem_of_find?_eq_some hf, h2⟩)
      | none =>
        rw [hf] at hd
        rw [hsg] at hd
        exact Or.inl (List.mem_flatMap.mpr ⟨u, hu, hd⟩)
    · rw [hsg] at hd
      exact Or.inr (List.mem_flatMap.mpr ⟨v, hv, hd⟩)
  · intro h
    rcases h with h | h
    · rcases List.mem_flatMap.mp h with ⟨u, hu, hd⟩
      refine List.mem_flatMap.mpr ⟨(match inc.find? (fun v => idf v == idf u) with
        | some v => upd u (mergeSignatures (sg u) (sg v))
        | none => upd u (sg u)), ?_, ?_⟩
      · exact (mem_mergeById idf sg upd ex inc _).mpr (Or.inl ⟨u, hu, rfl⟩)
      · cases hf : inc.find? (fun v => idf v == idf u) with
        | some v =>
          simp only [hf, hsg]
          exact (mem_sigDigest_mergeSignatures (sg u) (sg v) d).mpr (Or.inl hd)
        | none =>
          simp only [hf, hsg]
          exact hd
    · rcases List.mem_flatMap.mp h with ⟨v, hv, hd⟩
      by_cases hex : ex.any (fun u => idf u == idf v) = true
      · rcases List.any_eq_true.mp hex with ⟨u, hu, hbeq⟩
        have heq : idf u = idf v := by simpa using hbeq
        have hf : inc.find? (fun w => idf w == idf u) = some v := by
          rw [heq]
          exact find?_beq_of_nodup idf inc hnodup v hv
        refine List.mem_flatMap.mpr ⟨upd u (mergeSignatures (sg u) (sg v)), ?_, ?_⟩
        · refine (mem_mergeById idf sg upd ex inc _).mpr (Or.inl ⟨u, hu, ?_⟩)
          rw [hf]
        · rw [hsg]
          exact (mem_sigDigest_mergeSignatures (sg u) (sg v) d).mpr (Or.inr hd)
      · refine List.mem_flatMap.mpr ⟨upd v (sg v), ?_, ?_⟩
        · exact (mem_mergeById idf sg upd ex inc _).mpr
            (Or.inr ⟨v, hv, Bool.eq_false_iff.mpr hex, rfl⟩)
        · rw [hsg]
          exact hd

theorem mergeById_self {α : Type} (idf : α → GoString) (sg : α → List Signature)
    (upd : α → List Signature → α) (ex : List α)
    (hnodup : (ex.map idf).Nodup)
    (hupd : ∀ u ∈ ex, upd u (sg u) = u) :
    mergeById idf sg upd ex ex = ex := by
  unfold mergeById
  have hfil : ex.filter (fun v => !(ex.any (fun u => idf u == idf v))) = [] := by
    refine List.filter_eq_nil_iff.mpr ?_
    intro v hv
    have : ex.any (fun u => idf u == idf v) = true :=
      List.any_eq_true.mpr ⟨v, hv, by simp⟩
    simp [this]
  have hmap : ex.map (fun u => match ex.find? (fun v => idf v == idf u) with
      | some v => upd u (mergeSignatures (sg u) (sg v))
      | none => upd u (sg u)) = ex := by
    have := List.map_congr_left (l := ex)
      (f := fun u => match ex.find? (fun v => idf v == idf u) with
        | some v => upd u (mergeSignatures (sg u) (sg v))
        | none => upd u (sg u))
      (g := fun u => u)
      (fun u hu => by
        simp only [find?_beq_of_nodup idf ex hnodup u hu, mergeSignatures_self, hupd u hu])
    simpa using this
  rw [hfil, hmap]
  simp

theorem allSigDigests_union (A B : Pubkey)
    (h1 : (uidDigests B).Nodup) (h2 : (uatDigests B).Nodup) (h3 : (subkeyDigests B).Nodup)
    (d : GoString) :
    d ∈ allSigDigests (mergePubkeys A B) ↔ d ∈ allSigDigests A ∨ d ∈ allSigDigests B := by
  simp only [allSigDigests, mergePubkeys, mergeUserIds, mergeUserAttributes, mergeSubkeys,
    List.mem_append]
  rw [mem_sigDigest_mergeSignatures,
    mergeById_sig_mem UserId.ScopedDigest UserId.Signatures updUserId
      (fun u s => rfl) A.UserIds B.UserIds h1 d,
    mergeById_sig_mem UserAttribute.ScopedDigest UserAttribute.Signatures updUserAttribute
      (fun a s => rfl) A.UserAttributes B.UserAttributes h2 d,
    mergeById_sig_mem Subkey.RFingerprint Subkey.Signatures updSubkey
      (fun k s => rfl) A.Subkeys B.Subkeys h3 d]
  tauto

theorem uidDigests_union (A B : Pubkey) (d : GoString) :
    d ∈ uidDigests (mergePubkeys A B) ↔ d ∈ uidDigests A ∨ d ∈ uidDigests B := by
  simp only [uidDigests, mergePubkeys, mergeUserIds]
  exact mergeById_id_mem UserId.ScopedDigest UserId.Signatures updUserId
    (fun u s => rfl) A.UserIds B.UserIds d

theorem uatDigests_union (A B : Pubkey) (d : GoString) :
    d ∈ uatDigests (mergePubkeys A B) ↔ d ∈ uatDigests A ∨ d ∈ uatDigests B := by
  simp only [uatDigests, mergePubkeys, mergeUserAttributes]
  exact mergeById_id_mem UserAttribute.ScopedDigest UserAttribute.Signatures updUserAttribute
    (fun a s => rfl) A.UserAttributes B.UserAttributes d

theorem subkeyDigests_union (A B : Pubkey) (d : GoString) :
    d ∈ subkeyDigests (mergePubkeys A B) ↔ d ∈ subkeyDigests A ∨ d ∈ subkeyDigests B := by
  simp only [subkeyDigests, mergePubkeys, mergeSubkeys]
  exact mergeById_id_mem Subkey.RFingerprint Subkey.Signatures updSubkey
    (fun k s => rfl) A.Subkeys B.Subkeys d

theorem mergePubkeys_self (A : Pubkey) (hA : canonicalPubkey A) : mergePubkeys A A = A := by
  obtain ⟨h1, h2, h3, h4, h5⟩ := hA
  unfold mergePubkeys mergeUserIds mergeUserAttributes mergeSubkeys
  rw [mergeSignatures_self,
    mergeById_self UserId.ScopedDigest UserId.Signatures updUserId A.UserIds h1
      (fun u hu => by unfold updUserId; rw [← h4 u hu]),
    mergeById_self UserAttribute.ScopedDigest UserAttribute.Signatures updUserAttribute
      A.UserAttributes h2
      (fun a ha => by unfold updUserAttribute; rw [← h5 a ha]),
    mergeById_self Subkey.RFingerprint Subkey.Signatures updSubkey A.Subkeys h3
      (fun k hk => rfl)]

/-- C1: for canonical Pubkey trees with equal stored fingerprint, the
merged tree contains the same set of signature identity digests (over the
whole tree) and the same sets of UserId, UserAttribute and Subkey
identity digests whichever side is existing and which incoming, the merge
call succeeds on equal fingerprints, and merging a tree with itself
returns it structurally unchanged. -/
theorem merge_digest_sets_comm_idem (A B : Pubkey)
    (hfp : A.RFingerprint = B.RFingerprint)
    (hA : canonicalPubkey A) (hB : canonicalPubkey B) :
    (∀ d, d ∈ allSigDigests (mergePubkeys A B) ↔ d ∈ allSigDigests (mergePubkeys B A)) ∧
    (∀ d, d ∈ uidDigests (mergePubkeys A B) ↔ d ∈ uidDigests (mergePubkeys B A)) ∧
    (∀ d, d ∈ uatDigests (mergePubkeys A B) ↔ d ∈ uatDigests (mergePubkeys B A)) ∧
    (∀ d, d ∈ subkeyDigests (mergePubkeys A B) ↔ d ∈ subkeyDigests (mergePubkeys B A)) ∧
    merge A B = Except.ok (mergePubkeys A B) ∧
    merge A A = Except.ok A := by
  obtain ⟨hA1, hA2, hA3, hA4, hA5⟩ := hA
  obtain ⟨hB1, hB2, hB3, hB4, hB5⟩ := hB
  refine ⟨?_, ?_, ?_, ?_, ?_, ?_⟩
  · intro d
    rw [allSigDigests_union A B hB1 hB2 hB3 d, allSigDigests_union B A hA1 hA2 hA3 d]
    tauto
  · intro d
    rw [uidDigests_union A B d, uidDigests_union B A d]
    tauto
  · intro d
    rw [uatDigests_union A B d, uatDigests_union B A d]
    tauto
  · intro d
    rw [subkeyDigests_union A B d, subkeyDigests_union B A d]
    tauto
  · simp [merge, hfp]
  · simp [merge, mergePubkeys_self A ⟨hA1, hA2, hA3, hA4, hA5⟩]

theorem merge_digest_sets_comm_idem_witness :
    mergeTreeA.RFingerprint = mergeTreeB.RFingerprint ∧
    canonicalPubkey mergeTreeA ∧ canonicalPubkey mergeTreeB ∧
    merge mergeTreeA mergeTreeA = Except.ok mergeTreeA := by
  have hA : canonicalPubkey mergeTreeA := by
    simp [canonicalPubkey, uidDigests, uatDigests, subkeyDigests, mergeTreeA, basePubkey,
      baseUserId, mkSigD, resolveSelfSigUid, Signature.SigType, SigTypePositiveCert]
  have hB : canonicalPubkey mergeTreeB := by
    simp [canonicalPubkey, uidDigests, uatDigests, subkeyDigests, mergeTreeB, basePubkey,
      baseUserId, mkSigD, resolveSelfSigUid, Signature.SigType, SigTypePositiveCert]
  exact ⟨rfl, hA, hB,
    (merge_digest_sets_comm_idem mergeTreeA mergeTreeB rfl hA hB).2.2.2.2.2⟩
